import Mathlib

/-!
Verification of the CalvingMIP EXP1 postprocessing pipeline
(`examples/marine/calvingmip/postprocess_exp1.py`).

The script reads a PISM output snapshot, resolves field names with an
ordered fallback, builds 2-D coordinate meshes from the 1-D axis arrays,
plans eight radial transects from the grid center, samples fields along
each transect into fixed-capacity buffers, normalizes zero cells of the
continuous fields to a missing marker, and writes truncated per-transect
profile arrays.

Numeric values are modelled as rationals.  The external helper module
`postprocess_helper` (point generator and interpolation primitives) is not
part of the sources; where a claim depends on it, a definition modelled
from the specification is used and marked as such in its doc comment.
-/

/-- Seconds per year, from the source: `secperyear = 365*24*3600`. -/
def secperyear : ℚ := 365 * 24 * 3600

/-- A 2-D gridded field, row-major as in the source numpy arrays. -/
abbrev Field2D := List (List ℚ)

/-- Element access with out-of-range default 0, mirroring in-range numpy indexing. -/
def getQ (f : Field2D) (i j : ℕ) : ℚ := (f.getD i []).getD j 0

/-- Velocity unit conversion, from the source: `datnc.variables[...]*secperyear`. -/
def scaleField (f : Field2D) : Field2D :=
  f.map (fun row => row.map (fun v => v * secperyear))

/-- Mask remap at read time, from the source line
`exp1_mask = datnc.variables["mask"][tex,:]-1`. -/
def remapMask (m : Field2D) : Field2D :=
  m.map (fun row => row.map (fun v => v - 1))

/-- A field cell after missing-value normalization: either a value or the
missing-data marker (`np.nan` in the source). -/
inductive Cell where
  | val (q : ℚ)
  | missing
deriving DecidableEq

/-- Missing-value normalization, from the source lines
`exp1_thk[exp1_thk == 0.0] = np.nan` (and likewise for the velocities):
every cell that is exactly zero becomes the missing marker. -/
def setZeroMissing (f : Field2D) : List (List Cell) :=
  f.map (fun row => row.map (fun v => if v = 0 then Cell.missing else Cell.val v))

/-- Cell access in a normalized field, default `Cell.val 0`. -/
def getC (f : List (List Cell)) (i j : ℕ) : Cell := (f.getD i []).getD j (Cell.val 0)

/-- Center index, from the source: `Mp = int((Mx-1)/2.0)`. -/
def Mp (Mx : ℕ) : ℕ := (Mx - 1) / 2

/-- A transect in grid-index space: a start and an end index pair,
from the source `points_X = [[...],[...]]` lists. -/
structure TransectSpec where
  start : ℕ × ℕ
  stop : ℕ × ℕ
deriving DecidableEq

/-- Source: `points_C = [[Mp,Mp],[Mx-2,Mp]]`. -/
def points_C (Mx _My : ℕ) : TransectSpec := ⟨(Mp Mx, Mp Mx), (Mx - 2, Mp Mx)⟩

/-- Source: `points_B = [[Mp,Mp],[Mx-2,My-2]]`. -/
def points_B (Mx My : ℕ) : TransectSpec := ⟨(Mp Mx, Mp Mx), (Mx - 2, My - 2)⟩

/-- Source: `points_A = [[Mp,Mp],[Mp,My-2]]`. -/
def points_A (Mx My : ℕ) : TransectSpec := ⟨(Mp Mx, Mp Mx), (Mp Mx, My - 2)⟩

/-- Source: `points_H = [[Mp,Mp],[2,My-2]]`. -/
def points_H (Mx My : ℕ) : TransectSpec := ⟨(Mp Mx, Mp Mx), (2, My - 2)⟩

/-- Source: `points_G = [[Mp,Mp],[2,Mp]]`. -/
def points_G (Mx _My : ℕ) : TransectSpec := ⟨(Mp Mx, Mp Mx), (2, Mp Mx)⟩

/-- Source: `points_F = [[Mp,Mp],[2,2]]`. -/
def points_F (Mx _My : ℕ) : TransectSpec := ⟨(Mp Mx, Mp Mx), (2, 2)⟩

/-- Source: `points_E = [[Mp,Mp],[Mp,2]]`. -/
def points_E (Mx _My : ℕ) : TransectSpec := ⟨(Mp Mx, Mp Mx), (Mp Mx, 2)⟩

/-- Source: `points_D = [[Mp,Mp],[Mx-2,2]]`. -/
def points_D (Mx _My : ℕ) : TransectSpec := ⟨(Mp Mx, Mp Mx), (Mx - 2, 2)⟩

/-- Source: `transects=[points_A,points_B,points_C,points_D,points_E,points_F,points_G,points_H]`. -/
def transects (Mx My : ℕ) : List TransectSpec :=
  [points_A Mx My, points_B Mx My, points_C Mx My, points_D Mx My,
   points_E Mx My, points_F Mx My, points_G Mx My, points_H Mx My]

/-- Zero-initialized 2-D array, from the source `np.zeros([Mx,My])`. -/
def mkZeros (Mx My : ℕ) : Field2D := List.replicate Mx (List.replicate My (0 : ℚ))

/-- X-coordinate mesh, from the source loop
`for i in range(Mx): exp1_xm[i,:]=exp1_x[i]` started from `np.zeros([Mx,My])`. -/
def buildXmesh (X : List ℚ) (Mx My : ℕ) : Field2D :=
  (List.range Mx).foldl (fun m i => m.set i (List.replicate My (X.getD i 0))) (mkZeros Mx My)

/-- Column assignment `m[:,j] = v` on a row-major 2-D list. -/
def setColConst (m : Field2D) (j : ℕ) (v : ℚ) : Field2D :=
  m.map (fun row => row.set j v)

/-- Y-coordinate mesh, from the source loop
`for j in range(My): exp1_ym[:,j]=exp1_y[j]` started from `np.zeros([Mx,My])`. -/
def buildYmesh (Y : List ℚ) (Mx My : ℕ) : Field2D :=
  (List.range My).foldl (fun m j => setColConst m j (Y.getD j 0)) (mkZeros Mx My)

/-- A fractional sample point, the pair `(p[0], p[1])` produced by the
external point generator. -/
abbrev SamplePoint := ℚ × ℚ

/-- Source loop line 121: `i=int(np.floor(p[1]))` (nonnegative in-range points,
per the spec invariant on sample points). -/
def decompI (p : SamplePoint) : ℕ := (Int.floor p.2).toNat

/-- Source loop line 122: `j=int(np.floor(p[0]))`. -/
def decompJ (p : SamplePoint) : ℕ := (Int.floor p.1).toNat

/-- Source loop line 123: `di=p[0]-np.floor(p[0])`. -/
def decompDi (p : SamplePoint) : ℚ := p.1 - Int.floor p.1

/-- Source loop line 124: `dj=p[1]-np.floor(p[1])`. -/
def decompDj (p : SamplePoint) : ℚ := p.2 - Int.floor p.2

/-- Modelled from the spec: the bilinear sampler `interpolate_along_transect`
of the external helper module `postprocess_helper.py`, which is not among the
sources.  Standard bilinear weights `(1-di)(1-dj)`, `di(1-dj)`, `(1-di)dj`,
`di*dj` are applied to the four surrounding cells, with `di` paired with the
second-index increment and `dj` with the first-index increment — the single
orientation consistent with the source's use of one `(i,j,di,dj)` tuple for
both the transposed coordinate meshes and the field arrays. -/
def interpolate_along_transect (f : Field2D) (i j : ℕ) (di dj : ℚ) : ℚ :=
  (1 - di) * (1 - dj) * getQ f i j + di * (1 - dj) * getQ f i (j + 1)
    + (1 - di) * dj * getQ f (i + 1) j + di * dj * getQ f (i + 1) (j + 1)

/-- Modelled from the spec: the categorical sampler `nearest_along_transect`
of the external helper module `postprocess_helper.py`, which is not among the
sources: it rounds the fractional position to the nearest grid cell and
returns that cell's raw value unmodified. -/
def nearest_along_transect (f : Field2D) (i j : ℕ) (di dj : ℚ) : ℚ :=
  getQ f (if (1 : ℚ) / 2 ≤ dj then i + 1 else i) (if (1 : ℚ) / 2 ≤ di then j + 1 else j)

/-- Bilinear sample of a field at a fractional point, as in the source
sampling loop body. -/
def sampleF (f : Field2D) (p : SamplePoint) : ℚ :=
  interpolate_along_transect f (decompI p) (decompJ p) (decompDi p) (decompDj p)

/-- Nearest-neighbor sample of a field at a fractional point, from the source
`mav[l,k]=ph.nearest_along_transect(exp1_mask,i,j,di,dj)`. -/
def sampleNearest (f : Field2D) (p : SamplePoint) : ℚ :=
  nearest_along_transect f (decompI p) (decompJ p) (decompDi p) (decompDj p)

/-- Source line 126: `xav[l,k]=ph.interpolate_along_transect(exp1_ym,i,j,di,dj)`. -/
def xavVal (ym : Field2D) (p : SamplePoint) : ℚ := sampleF ym p

/-- Source line 127: `yav[l,k]=ph.interpolate_along_transect(exp1_xm,i,j,di,dj)`. -/
def yavVal (xm : Field2D) (p : SamplePoint) : ℚ := sampleF xm p

/-- Source line 128: `sav[l,k]=np.sqrt(xav[l,k]**2+yav[l,k]**2)`.  The stored
value is the square root of this radicand; the radicand determines it as its
nonnegative square root, and rationals keep the development exact. -/
def savSq (xm ym : Field2D) (p : SamplePoint) : ℚ :=
  (xavVal ym p) ^ 2 + (yavVal xm p) ^ 2

/-- Linear interpolation of a 1-D axis array at a fractional index. -/
def lerpAxis (A : List ℚ) (t : ℚ) : ℚ :=
  (1 - (t - Int.floor t)) * A.getD (Int.floor t).toNat 0
    + (t - Int.floor t) * A.getD ((Int.floor t).toNat + 1) 0

/-- The sampling loop's writes into one row of a preallocated buffer
(`np.zeros([len(trans),300])`, source lines 99 to 106): point `k` is written
at index `k`; an index at or past the row capacity is an index error,
modelled as `none`. -/
def writeLoop (row : List ℚ) (k : ℕ) : List ℚ → Option (List ℚ)
  | [] => some row
  | v :: vs => if k < row.length then writeLoop (row.set k v) (k + 1) vs else none

/-- Write a transect's sampled values into a fresh 300-slot zero row,
starting at index 0, as the source loop does for each buffer row `l`. -/
def writeRow (vals : List ℚ) : Option (List ℚ) :=
  writeLoop (List.replicate 300 (0 : ℚ)) 0 vals

/-- One transect's truncated output arrays: squared distance, thickness,
mask, x-velocity and y-velocity along the profile. -/
structure ProfileOut where
  sArr : List ℚ
  hArr : List ℚ
  mArr : List ℚ
  uArr : List ℚ
  vArr : List ℚ
deriving DecidableEq

/-- Sampling of one transect into the capacity-300 buffer rows (source lines
117 to 137) followed by the write-time truncation to the transect's own point
count, `cut = np.shape(trans[l])[0]` and `sav[l][0:cut]` (source lines 257
to 263). -/
def sampleTransect (thkF uF vF maskF xm ym : Field2D) (pts : List SamplePoint) :
    Option ProfileOut := do
  let sr ← writeRow (pts.map (fun p => savSq xm ym p))
  let hr ← writeRow (pts.map (fun p => sampleF thkF p))
  let mr ← writeRow (pts.map (fun p => sampleNearest maskF p))
  let ur ← writeRow (pts.map (fun p => sampleF uF p))
  let vr ← writeRow (pts.map (fun p => sampleF vF p))
  pure ⟨sr.take pts.length, hr.take pts.length, mr.take pts.length,
    ur.take pts.length, vr.take pts.length⟩

/-- Fallible map over a list, propagating the first failure. -/
def optMap {α β : Type} (f : α → Option β) : List α → Option (List β)
  | [] => some []
  | a :: as => do
    let b ← f a
    let bs ← optMap f as
    pure (b :: bs)

/-- The variables read from the PISM output snapshot.  An absent variable
name is `none` (reading it raises in the source). -/
structure Dataset where
  x : List ℚ
  y : List ℚ
  xvelmean : Option Field2D
  yvelmean : Option Field2D
  lithk : Option Field2D
  u_ssa : Option Field2D
  v_ssa : Option Field2D
  thk : Option Field2D
  mask : Field2D
  topg : Field2D

/-- One attempt at a velocity/thickness name set: it succeeds only when all
three names are present, and both velocity fields are scaled by
`secperyear` (source lines 32 to 34 and 36 to 38). -/
def tryNameSet (u v h : Option Field2D) : Option (Field2D × Field2D × Field2D) :=
  match u, v, h with
  | some uf, some vf, some hf => some (scaleField uf, scaleField vf, hf)
  | _, _, _ => none

/-- Field name resolution, from the source `try:`/`except:` block at lines
31 to 38: the primary name set `xvelmean`/`yvelmean`/`lithk` first, then the
fallback set `u_ssa`/`v_ssa`/`thk`; `none` when both fail, in which case the
exception propagates and the script aborts. -/
def resolveFields (ds : Dataset) : Option (Field2D × Field2D × Field2D) :=
  match tryNameSet ds.xvelmean ds.yvelmean ds.lithk with
  | some r => some r
  | none => tryNameSet ds.u_ssa ds.v_ssa ds.thk

/-- The data written to the output file: normalized global fields, the
remapped mask, the bedrock field, and the eight profile records. -/
structure Output where
  xvelmean : List (List Cell)
  yvelmean : List (List Cell)
  lithk : List (List Cell)
  mask : Field2D
  topg : Field2D
  profiles : List ProfileOut
deriving DecidableEq

/-- Step in cell units, from the source `dp=np.float(dkm)/np.float(resolution)`
with `dkm=5.0` and `resolution=5.0`. -/
def dp : ℚ := 5 / 5

/-- Grid row count, from the source `Mx,My = np.shape(exp1_mask)`. -/
def gridMx (ds : Dataset) : ℕ := ds.mask.length

/-- Grid column count, from the source `Mx,My = np.shape(exp1_mask)`. -/
def gridMy (ds : Dataset) : ℕ := (ds.mask.getD 0 []).length

/-- The profile-sampling stage of the pipeline: `Mx, My = np.shape(exp1_mask)`,
the coordinate meshes, the eight transects handed to the external point
generator, and the per-transect sampling into buffers with truncation. -/
def pipelineProfiles (gen : TransectSpec → ℚ → List SamplePoint) (ds : Dataset)
    (uF vF hF : Field2D) : Option (List ProfileOut) :=
  optMap
    (fun pts => sampleTransect hF uF vF (remapMask ds.mask)
      (buildXmesh ds.x (gridMx ds) (gridMy ds))
      (buildYmesh ds.y (gridMx ds) (gridMy ds)) pts)
    ((transects (gridMx ds) (gridMy ds)).map (fun t => gen t dp))

/-- The sample points the external generator yields for transect `l`,
`trans[l]` in the source. -/
def transPoints (gen : TransectSpec → ℚ → List SamplePoint) (ds : Dataset)
    (l : ℕ) : List SamplePoint :=
  gen ((transects (gridMx ds) (gridMy ds)).getD l (points_A 0 0)) dp

/-- The postprocessing pipeline over in-memory data.  The transect point
generator `ph.get_troughs` of the external helper module is an external
collaborator (spec section 4.3) and is passed in as `gen`.  `none` models a
fatal error: the exception propagates and no output file is produced. -/
def runPostprocess (gen : TransectSpec → ℚ → List SamplePoint) (ds : Dataset) :
    Option Output :=
  match resolveFields ds with
  | none => none
  | some (uF, vF, hF) =>
    match pipelineProfiles gen ds uF vF hF with
    | none => none
    | some profs =>
      some ⟨setZeroMissing uF, setZeroMissing vF, setZeroMissing hF,
        remapMask ds.mask, ds.topg, profs⟩

/-- A dataset exposing both the primary and the fallback name sets. -/
def dsPrimary : Dataset :=
  ⟨[0], [0], some [[1]], some [[2]], some [[3]], some [[7]], some [[8]], some [[9]],
    [[1]], [[0]]⟩

/-- A dataset with all six velocity/thickness name candidates absent. -/
def dsNoNames : Dataset :=
  ⟨[0], [0], none, none, none, none, none, none, [[1]], [[0]]⟩

/-- A small complete dataset over a 1-by-1 grid, with a zero velocity cell. -/
def dsSmall : Dataset :=
  ⟨[0], [0], some [[0]], some [[1]], some [[2]], none, none, none, [[1]], [[3]]⟩

/-- A dataset over an even 4-by-4 grid, which has no exact center cell. -/
def dsEvenGrid : Dataset :=
  ⟨[0, 1, 2, 3], [0, 1, 2, 3], some (List.replicate 4 (List.replicate 4 1)),
    some (List.replicate 4 (List.replicate 4 1)),
    some (List.replicate 4 (List.replicate 4 1)),
    none, none, none, List.replicate 4 (List.replicate 4 1),
    List.replicate 4 (List.replicate 4 0)⟩

/-- The trivial external point generator producing no points. -/
def genEmpty : TransectSpec → ℚ → List SamplePoint := fun _ _ => []

/-- An external point generator producing the single point at index (0,0). -/
def genOrigin : TransectSpec → ℚ → List SamplePoint := fun _ _ => [(0, 0)]

/-- The empty profile record. -/
def profEmpty : ProfileOut := ⟨[], [], [], [], []⟩

/-- The profile record sampled from `dsSmall` at the single point (0,0). -/
def profOrigin : ProfileOut := ⟨[0], [2], [0], [0], [31536000]⟩

/-- The pipeline output for `dsSmall` under the empty point generator. -/
def outSmall : Output :=
  ⟨[[Cell.missing]], [[Cell.val 31536000]], [[Cell.val 2]], [[0]], [[3]],
    List.replicate 8 profEmpty⟩

/-- The pipeline output for `dsSmall` under the one-point generator. -/
def outOrigin : Output :=
  ⟨[[Cell.missing]], [[Cell.val 31536000]], [[Cell.val 2]], [[0]], [[3]],
    List.replicate 8 profOrigin⟩

attribute [local semireducible] Rat.mul Rat.add Rat.sub Rat.inv

/-- Claim C4: for every grid with an exact center cell (odd `Mx`, `My`), all
eight transect specs have the identical start index pair `(Mp, Mp)` with
`Mp = (Mx-1)/2`. -/
theorem C4_all_transects_start_at_center (Mx My : ℕ) (_hx : Odd Mx) (_hy : Odd My) :
    ∀ t ∈ transects Mx My, t.start = (Mp Mx, Mp Mx) ∧ Mp Mx = (Mx - 1) / 2 := by
  intro t ht
  refine ⟨?_, rfl⟩
  simp only [transects, List.mem_cons, List.not_mem_nil, or_false] at ht
  rcases ht with h | h | h | h | h | h | h | h <;> subst h <;> rfl

theorem C4_all_transects_start_at_center_witness :
    (points_C 5 5).start = (Mp 5, Mp 5) ∧ Mp 5 = (5 - 1) / 2 :=
  C4_all_transects_start_at_center 5 5 ⟨2, by decide⟩ ⟨2, by decide⟩
    (points_C 5 5) (by decide)

/-- Claim C8 counterexample: at `Mx = My = 9` the transect B end is `(7, 7)`;
the coordinate 7 differs from `Mp 9 = 4` yet its distance to the nearest
boundary index (0 or 8) is 1, not 2, refuting the claim that every end
coordinate other than `Mp` lies exactly 2 cells from the nearest boundary. -/
theorem C8_end_margin_counterexample :
    ¬ (∀ t ∈ transects 9 9, ∀ c ∈ [t.stop.1, t.stop.2],
        c ≠ Mp 9 → min c (9 - 1 - c) = 2) := by
  decide

/-- Claim C8 (amended): every transect end coordinate is `Mp`, 2, or
`Mx-2` (respectively `My-2`); each transect ends at an edge midpoint (one
coordinate equal to `Mp`) or at a near-corner point with both coordinates in
the pair 2 / dimension minus 2.  Index 2 is two cells from boundary index 0,
while index `Mx-2` is one cell from boundary index `Mx-1`. -/
theorem C8_transect_ends (Mx My : ℕ) :
    ∀ t ∈ transects Mx My,
      ((t.stop.1 = Mp Mx ∨ t.stop.2 = Mp Mx) ∨
        ((t.stop.1 = 2 ∨ t.stop.1 = Mx - 2) ∧ (t.stop.2 = 2 ∨ t.stop.2 = My - 2))) ∧
      (t.stop.1 = Mp Mx ∨ t.stop.1 = 2 ∨ t.stop.1 = Mx - 2) ∧
      (t.stop.2 = Mp Mx ∨ t.stop.2 = 2 ∨ t.stop.2 = My - 2) := by
  intro t ht
  simp only [transects, List.mem_cons, List.not_mem_nil, or_false] at ht
  rcases ht with h | h | h | h | h | h | h | h <;> subst h <;>
    simp [points_A, points_B, points_C, points_D, points_E, points_F, points_G, points_H]

theorem C8_transect_ends_witness :
    ((points_A 9 9).stop.1 = Mp 9 ∨ (points_A 9 9).stop.2 = Mp 9) ∨
      (((points_A 9 9).stop.1 = 2 ∨ (points_A 9 9).stop.1 = 9 - 2) ∧
        ((points_A 9 9).stop.2 = 2 ∨ (points_A 9 9).stop.2 = 9 - 2)) :=
  (C8_transect_ends 9 9 (points_A 9 9) (by decide)).1

/-- In-range cell of an elementwise-mapped 2-D list: mapping commutes with access. -/
lemma getD_mapmap {α β : Type} (g : α → β) (f : List (List α)) (i j : ℕ) (d : α) (e : β)
    (hi : i < f.length) (hj : j < (f.getD i []).length) :
    ((f.map (fun row => row.map g)).getD i []).getD j e = g ((f.getD i []).getD j d) := by
  have hfi : f.getD i [] = f.get ⟨i, hi⟩ := by
    simp [List.getD_eq_getElem?_getD, List.getElem?_eq_getElem hi]
  have hj' : j < (f.get ⟨i, hi⟩).length := by rw [← hfi]; exact hj
  simp only [List.getD_eq_getElem?_getD, List.getElem?_map,
    List.getElem?_eq_getElem hi, List.get_eq_getElem] at hfi ⊢
  simp only [hfi, Option.map_some, Option.getD_some, List.getElem?_map]
  simp only [List.get_eq_getElem] at hj'
  simp [List.getElem?_eq_getElem hj']

/-- Claim C6: the mask is remapped by subtracting 1 from every stored value;
a stored value in the set 1, 2, 3 is sent to the category space 0, 1, 2. -/
theorem C6_mask_remap (m : Field2D) (i j : ℕ)
    (hi : i < m.length) (hj : j < (m.getD i []).length) :
    getQ (remapMask m) i j = getQ m i j - 1 ∧
    (getQ m i j = 1 ∨ getQ m i j = 2 ∨ getQ m i j = 3 →
      getQ (remapMask m) i j = 0 ∨ getQ (remapMask m) i j = 1 ∨
        getQ (remapMask m) i j = 2) := by
  have hcell : getQ (remapMask m) i j = getQ m i j - 1 :=
    getD_mapmap (fun v => v - 1) m i j 0 0 hi hj
  refine ⟨hcell, fun h => ?_⟩
  rcases h with h | h | h <;> rw [hcell, h] <;> norm_num

theorem C6_mask_remap_witness :
    getQ (remapMask [[1, 2], [3, 1]]) 1 0 = getQ [[1, 2], [3, 1]] 1 0 - 1 ∧
    (getQ [[1, 2], [3, 1]] 1 0 = 1 ∨ getQ [[1, 2], [3, 1]] 1 0 = 2 ∨
        getQ [[1, 2], [3, 1]] 1 0 = 3 →
      getQ (remapMask [[1, 2], [3, 1]]) 1 0 = 0 ∨
        getQ (remapMask [[1, 2], [3, 1]]) 1 0 = 1 ∨
        getQ (remapMask [[1, 2], [3, 1]]) 1 0 = 2) :=
  C6_mask_remap [[1, 2], [3, 1]] 1 0 (by decide) (by decide)

/-- A fold of element assignments preserves the list length. -/
lemma foldl_set_length {α : Type} (f : ℕ → α) (l0 : List α) (js : List ℕ) :
    (js.foldl (fun m k => m.set k (f k)) l0).length = l0.length := by
  induction js generalizing l0 with
  | nil => rfl
  | cons j js ih => simp [List.foldl_cons, ih, List.length_set]

/-- Folding assignments at indices `0..n-1` writes `f i` at every `i < n`. -/
lemma foldl_set_range_getD {α : Type} (f : ℕ → α) (d : α) (l0 : List α) (n i : ℕ)
    (h1 : i < n) (h2 : i < l0.length) :
    ((List.range n).foldl (fun m k => m.set k (f k)) l0).getD i d = f i := by
  induction n generalizing l0 with
  | zero => omega
  | succ n ih =>
    rw [List.range_succ, List.foldl_append, List.foldl_cons, List.foldl_nil]
    rcases Nat.lt_or_ge i n with hlt | hge
    · have hlen : i < ((List.range n).foldl (fun m k => m.set k (f k)) l0).length := by
        rw [foldl_set_length]; exact h2
      rw [List.getD_eq_getElem?_getD, List.getElem?_set_ne (by omega : n ≠ i),
        ← List.getD_eq_getElem?_getD]
      exact ih l0 hlt h2
    · have hi : i = n := by omega
      subst hi
      have hlen : i < ((List.range i).foldl (fun m k => m.set k (f k)) l0).length := by
        rw [foldl_set_length]; exact h2
      rw [List.getD_eq_getElem?_getD, List.getElem?_set_self hlen]
      rfl

/-- Folding assignments at indices `0..n-1` leaves entries at `i ≥ n` unchanged. -/
lemma foldl_set_range_getD_ge {α : Type} (f : ℕ → α) (d : α) (l0 : List α) (n i : ℕ)
    (h1 : n ≤ i) :
    ((List.range n).foldl (fun m k => m.set k (f k)) l0).getD i d = l0.getD i d := by
  induction n generalizing l0 with
  | zero => rfl
  | succ n ih =>
    rw [List.range_succ, List.foldl_append, List.foldl_cons, List.foldl_nil]
    rw [List.getD_eq_getElem?_getD, List.getElem?_set_ne (by omega : n ≠ i),
      ← List.getD_eq_getElem?_getD]
    exact ih l0 (by omega)

/-- The X mesh has `Mx` rows. -/
lemma buildXmesh_length (X : List ℚ) (Mx My : ℕ) : (buildXmesh X Mx My).length = Mx := by
  unfold buildXmesh
  rw [foldl_set_length]
  simp [mkZeros]

/-- Every in-range row of the X mesh is the constant row `X i` of width `My`. -/
lemma buildXmesh_row (X : List ℚ) (Mx My : ℕ) (i : ℕ) (hi : i < Mx) :
    (buildXmesh X Mx My).getD i [] = List.replicate My (X.getD i 0) := by
  unfold buildXmesh
  exact foldl_set_range_getD _ [] _ Mx i hi (by simp [mkZeros, hi])

/-- Pointwise value of the X mesh: `Xmesh[i,j] = X[i]`. -/
lemma buildXmesh_get (X : List ℚ) (Mx My : ℕ) (i j : ℕ) (hi : i < Mx) (hj : j < My) :
    getQ (buildXmesh X Mx My) i j = X.getD i 0 := by
  unfold getQ
  rw [buildXmesh_row X Mx My i hi]
  simp [List.getD_eq_getElem?_getD, List.getElem?_replicate, hj]

/-- Folding column assignments over a constant-row array acts row by row. -/
lemma foldl_setCol_replicate (js : List ℕ) (g : ℕ → ℚ) (Mx : ℕ) (r0 : List ℚ) :
    js.foldl (fun m j => m.map (fun row => row.set j (g j))) (List.replicate Mx r0) =
      List.replicate Mx (js.foldl (fun r j => r.set j (g j)) r0) := by
  induction js generalizing r0 with
  | nil => rfl
  | cons j js ih =>
    rw [List.foldl_cons, List.foldl_cons, List.map_replicate]
    exact ih _

/-- The Y mesh is the row-wise fold of single-row assignments. -/
lemma buildYmesh_rows (Y : List ℚ) (Mx My : ℕ) :
    buildYmesh Y Mx My =
      List.replicate Mx ((List.range My).foldl
        (fun r j => r.set j (Y.getD j 0)) (List.replicate My (0 : ℚ))) := by
  unfold buildYmesh setColConst mkZeros
  exact foldl_setCol_replicate (List.range My) (fun j => Y.getD j 0) Mx _

/-- The Y mesh has `Mx` rows. -/
lemma buildYmesh_length (Y : List ℚ) (Mx My : ℕ) : (buildYmesh Y Mx My).length = Mx := by
  rw [buildYmesh_rows]; simp

/-- Every in-range row of the Y mesh has width `My`. -/
lemma buildYmesh_row_length (Y : List ℚ) (Mx My : ℕ) (i : ℕ) (hi : i < Mx) :
    ((buildYmesh Y Mx My).getD i []).length = My := by
  rw [buildYmesh_rows]
  rw [List.getD_eq_getElem?_getD, List.getElem?_replicate]
  simp only [hi, if_pos]
  rw [Option.getD_some, foldl_set_length, List.length_replicate]

/-- Pointwise value of the Y mesh: `Ymesh[i,j] = Y[j]`. -/
lemma buildYmesh_get (Y : List ℚ) (Mx My : ℕ) (i j : ℕ) (hi : i < Mx) (hj : j < My) :
    getQ (buildYmesh Y Mx My) i j = Y.getD j 0 := by
  unfold getQ
  rw [buildYmesh_rows]
  have hrow : (List.replicate Mx ((List.range My).foldl
        (fun r j => r.set j (Y.getD j 0)) (List.replicate My (0 : ℚ)))).getD i [] =
      (List.range My).foldl (fun r j => r.set j (Y.getD j 0)) (List.replicate My (0 : ℚ)) := by
    rw [List.getD_eq_getElem?_getD, List.getElem?_replicate]
    simp [hi]
  rw [hrow]
  exact foldl_set_range_getD (fun j => Y.getD j 0) 0 _ My j hj (by simp [hj])

/-- Every in-range row of the X mesh has width `My`. -/
lemma buildXmesh_row_length (X : List ℚ) (Mx My : ℕ) (i : ℕ) (hi : i < Mx) :
    ((buildXmesh X Mx My).getD i []).length = My := by
  rw [buildXmesh_row X Mx My i hi, List.length_replicate]

/-- Claim C7: for non-empty axis arrays `X` (length `Mx`) and `Y` (length `My`)
the mesh builder yields `Xmesh` and `Ymesh` of shape `Mx` by `My` with
`Xmesh[i,j] = X[i]` for every `j` and `Ymesh[i,j] = Y[j]` for every `i`. -/
theorem C7_mesh_builder (X Y : List ℚ) (_hX : X ≠ []) (_hY : Y ≠ []) :
    (buildXmesh X X.length Y.length).length = X.length ∧
    (buildYmesh Y X.length Y.length).length = X.length ∧
    (∀ i < X.length,
      ((buildXmesh X X.length Y.length).getD i []).length = Y.length ∧
      ((buildYmesh Y X.length Y.length).getD i []).length = Y.length) ∧
    (∀ i < X.length, ∀ j < Y.length,
      getQ (buildXmesh X X.length Y.length) i j = X.getD i 0 ∧
      getQ (buildYmesh Y X.length Y.length) i j = Y.getD j 0) := by
  refine ⟨buildXmesh_length X _ _, buildYmesh_length Y _ _, fun i hi => ?_, fun i hi j hj => ?_⟩
  · exact ⟨buildXmesh_row_length X _ _ i hi, buildYmesh_row_length Y _ _ i hi⟩
  · exact ⟨buildXmesh_get X _ _ i j hi hj, buildYmesh_get Y _ _ i j hi hj⟩

theorem C7_mesh_builder_witness :
    getQ (buildXmesh [10, 20, 30] 3 2) 1 0 = 20 ∧
    getQ (buildYmesh [5, 6] 3 2) 2 1 = 6 := by
  have h := C7_mesh_builder [10, 20, 30] [5, 6] (by decide) (by decide)
  constructor
  · have h1 := (h.2.2.2 1 (by decide) 0 (by decide)).1
    simp only [List.length_cons, List.length_nil] at h1
    rw [h1]
    decide
  · have h2 := (h.2.2.2 2 (by decide) 1 (by decide)).2
    simp only [List.length_cons, List.length_nil] at h2
    rw [h2]
    decide

/-- Claim C3: for every in-range sample point, the stored distance is the
radial Euclidean distance from the physical origin: its radicand equals the
squared norm of the interpolated meshed coordinates, which in turn is the
squared norm of the linearly interpolated physical axis coordinates of the
point — not a cumulative arc length along the transect path. -/
theorem C3_distance_is_radial (X Y : List ℚ) (Mx My : ℕ) (p : SamplePoint)
    (_hp1 : 0 ≤ p.1) (_hp2 : 0 ≤ p.2)
    (hj : (Int.floor p.1).toNat + 1 < My) (hi : (Int.floor p.2).toNat + 1 < Mx) :
    savSq (buildXmesh X Mx My) (buildYmesh Y Mx My) p =
      (xavVal (buildYmesh Y Mx My) p) ^ 2 + (yavVal (buildXmesh X Mx My) p) ^ 2 ∧
    savSq (buildXmesh X Mx My) (buildYmesh Y Mx My) p =
      (lerpAxis Y p.1) ^ 2 + (lerpAxis X p.2) ^ 2 := by
  refine ⟨rfl, ?_⟩
  have hxav : xavVal (buildYmesh Y Mx My) p = lerpAxis Y p.1 := by
    unfold xavVal sampleF interpolate_along_transect lerpAxis decompI decompJ decompDi decompDj
    rw [buildYmesh_get Y Mx My _ _ (by omega) (by omega),
      buildYmesh_get Y Mx My _ _ (by omega) (by omega),
      buildYmesh_get Y Mx My _ _ (by omega) (by omega),
      buildYmesh_get Y Mx My _ _ (by omega) (by omega)]
    ring
  have hyav : yavVal (buildXmesh X Mx My) p = lerpAxis X p.2 := by
    unfold yavVal sampleF interpolate_along_transect lerpAxis decompI decompJ decompDi decompDj
    rw [buildXmesh_get X Mx My _ _ (by omega) (by omega),
      buildXmesh_get X Mx My _ _ (by omega) (by omega),
      buildXmesh_get X Mx My _ _ (by omega) (by omega),
      buildXmesh_get X Mx My _ _ (by omega) (by omega)]
    ring
  unfold savSq
  rw [hxav, hyav]

theorem C3_distance_is_radial_witness :
    savSq (buildXmesh [100, 200, 300] 3 3) (buildYmesh [10, 20, 30] 3 3) (1/2, 1) =
      (lerpAxis [10, 20, 30] (1/2)) ^ 2 + (lerpAxis [100, 200, 300] 1) ^ 2 :=
  (C3_distance_is_radial [100, 200, 300] [10, 20, 30] 3 3 (1/2, 1)
    (by norm_num) (by norm_num) (by norm_num) (by norm_num)).2

/-- In-range `getD` is plain indexing. -/
lemma getD_of_lt {α : Type} (l : List α) (i : ℕ) (h : i < l.length) (d : α) :
    l.getD i d = l.get ⟨i, h⟩ := by
  simp [List.getD_eq_getElem?_getD, List.getElem?_eq_getElem h]

/-- The write loop preserves the buffer row length. -/
lemma writeLoop_length (vs : List ℚ) (row : List ℚ) (k : ℕ) (r : List ℚ)
    (h : writeLoop row k vs = some r) : r.length = row.length := by
  induction vs generalizing row k with
  | nil =>
    simp only [writeLoop, Option.some.injEq] at h
    rw [← h]
  | cons v vs ih =>
    simp only [writeLoop] at h
    split at h
    · exact (ih _ _ h).trans (List.length_set row k v)
    · exact absurd h (by simp)

/-- The write loop succeeds exactly when the remaining values fit. -/
lemma writeLoop_isSome (vs : List ℚ) (row : List ℚ) (k : ℕ) (hk : k ≤ row.length) :
    (writeLoop row k vs).isSome ↔ k + vs.length ≤ row.length := by
  induction vs generalizing row k with
  | nil => simpa [writeLoop] using hk
  | cons v vs ih =>
    simp only [writeLoop]
    split
    · next hlt =>
      rw [ih (row.set k v) (k + 1) (by rw [List.length_set]; omega)]
      rw [List.length_set]
      simp only [List.length_cons]
      omega
    · next hge =>
      simp only [Option.isSome_none, Bool.false_eq_true, false_iff, List.length_cons]
      omega

/-- Entries below the write cursor are untouched by the write loop. -/
lemma writeLoop_getD_lt (vs : List ℚ) (row : List ℚ) (k : ℕ) (r : List ℚ) (d : ℚ)
    (h : writeLoop row k vs = some r) (m : ℕ) (hm : m < k) :
    r.getD m d = row.getD m d := by
  induction vs generalizing row k with
  | nil =>
    simp only [writeLoop, Option.some.injEq] at h
    rw [← h]
  | cons v vs ih =>
    simp only [writeLoop] at h
    split at h
    · rw [ih _ _ h (by omega), List.getD_eq_getElem?_getD,
        List.getElem?_set_ne (by omega : k ≠ m), ← List.getD_eq_getElem?_getD]
    · exact absurd h (by simp)

/-- The write loop stores value `t` of the list at buffer index `k + t`. -/
lemma writeLoop_getD_written (vs : List ℚ) (row : List ℚ) (k : ℕ) (r : List ℚ) (d : ℚ)
    (h : writeLoop row k vs = some r) (t : ℕ) (ht : t < vs.length) :
    r.getD (k + t) d = vs.getD t d := by
  induction vs generalizing row k t with
  | nil => simp at ht
  | cons v vs ih =>
    simp only [writeLoop] at h
    split at h
    · next hlt =>
      cases t with
      | zero =>
        rw [Nat.add_zero, writeLoop_getD_lt vs _ (k + 1) r d h k (by omega),
          List.getD_eq_getElem?_getD, List.getElem?_set_self hlt]
        rfl
      | succ t =>
        have hrec := ih _ (k + 1) h t (by simpa using ht)
        rw [show k + (t + 1) = (k + 1) + t by omega, hrec]
        rfl
    · exact absurd h (by simp)

/-- A buffer-row write succeeds exactly when the transect has at most 300 points. -/
lemma writeRow_isSome (vals : List ℚ) : (writeRow vals).isSome ↔ vals.length ≤ 300 := by
  unfold writeRow
  rw [writeLoop_isSome vals _ 0 (Nat.zero_le _)]
  rw [List.length_replicate, Nat.zero_add]

/-- A successful buffer-row write has the 300-slot capacity. -/
lemma writeRow_length (vals r : List ℚ) (h : writeRow vals = some r) : r.length = 300 := by
  unfold writeRow at h
  rw [writeLoop_length vals _ 0 r h, List.length_replicate]

/-- Truncating a successfully written buffer row to the value count recovers
exactly the written values: no buffer padding survives. -/
lemma writeRow_take (vals r : List ℚ) (h : writeRow vals = some r) :
    r.take vals.length = vals := by
  have hlen : r.length = 300 := writeRow_length vals r h
  have hle : vals.length ≤ 300 := by
    rw [← writeRow_isSome vals, h]
    rfl
  apply List.ext_getElem
  · rw [List.length_take, hlen]
    omega
  · intro n h1 h2
    have hn : n < vals.length := by
      rw [List.length_take] at h1
      omega
    rw [List.getElem_take]
    have hw := writeLoop_getD_written vals _ 0 r 0 h n hn
    rw [Nat.zero_add] at hw
    rw [getD_of_lt r n (by omega) 0, getD_of_lt vals n hn 0] at hw
    simpa using hw

/-- A successful fallible map preserves the length. -/
lemma optMap_length {α β : Type} (f : α → Option β) (l : List α) (bs : List β)
    (h : optMap f l = some bs) : bs.length = l.length := by
  induction l generalizing bs with
  | nil =>
    simp only [optMap, Option.some.injEq] at h
    rw [← h]
    rfl
  | cons a as ih =>
    simp only [optMap, Option.bind_eq_bind] at h
    cases hfa : f a with
    | none => rw [hfa] at h; simp at h
    | some b =>
      rw [hfa] at h
      simp only [Option.some_bind] at h
      cases hrest : optMap f as with
      | none => rw [hrest] at h; simp at h
      | some bs' =>
        rw [hrest] at h
        simp only [Option.some_bind, Option.pure_def, Option.some.injEq] at h
        rw [← h, List.length_cons, ih bs' hrest, List.length_cons]

/-- A successful fallible map succeeded on every element. -/
lemma optMap_mem_isSome {α β : Type} (f : α → Option β) (l : List α) (bs : List β)
    (h : optMap f l = some bs) : ∀ a ∈ l, (f a).isSome := by
  induction l generalizing bs with
  | nil => intro a ha; simp at ha
  | cons a as ih =>
    intro c hc
    simp only [optMap, Option.bind_eq_bind] at h
    cases hfa : f a with
    | none => rw [hfa] at h; simp at h
    | some b =>
      rw [hfa] at h
      simp only [Option.some_bind] at h
      cases hrest : optMap f as with
      | none => rw [hrest] at h; simp at h
      | some bs' =>
        rcases List.mem_cons.mp hc with hca | hcas
        · rw [hca, hfa]; rfl
        · exact ih bs' hrest c hcas

/-- Pointwise content of a successful fallible map. -/
lemma optMap_get {α β : Type} (f : α → Option β) (l : List α) (bs : List β)
    (h : optMap f l = some bs) (i : ℕ) (hi : i < l.length) (hi' : i < bs.length) :
    f (l.get ⟨i, hi⟩) = some (bs.get ⟨i, hi'⟩) := by
  induction l generalizing bs i with
  | nil => simp at hi
  | cons a as ih =>
    simp only [optMap, Option.bind_eq_bind] at h
    cases hfa : f a with
    | none => rw [hfa] at h; simp at h
    | some b =>
      rw [hfa] at h
      simp only [Option.some_bind] at h
      cases hrest : optMap f as with
      | none => rw [hrest] at h; simp at h
      | some bs' =>
        rw [hrest] at h
        simp only [Option.some_bind, Option.pure_def, Option.some.injEq] at h
        subst h
        cases i with
        | zero => simpa using hfa
        | succ i =>
          have hi2 : i < as.length := by simpa using hi
          have hi2' : i < bs'.length := by simpa using hi'
          simpa using ih bs' hrest i hi2 hi2'

/-- Characterization of a successful per-transect sampling: each output array
is exactly the list of that transect's sampled values, in point order. -/
lemma sampleTransect_eq (thkF uF vF maskF xm ym : Field2D) (pts : List SamplePoint)
    (prof : ProfileOut) (h : sampleTransect thkF uF vF maskF xm ym pts = some prof) :
    prof.sArr = pts.map (fun p => savSq xm ym p) ∧
    prof.hArr = pts.map (fun p => sampleF thkF p) ∧
    prof.mArr = pts.map (fun p => sampleNearest maskF p) ∧
    prof.uArr = pts.map (fun p => sampleF uF p) ∧
    prof.vArr = pts.map (fun p => sampleF vF p) := by
  unfold sampleTransect at h
  simp only [Option.bind_eq_bind] at h
  cases h1 : writeRow (pts.map fun p => savSq xm ym p) with
  | none => rw [h1] at h; simp at h
  | some sr =>
  rw [h1] at h
  simp only [Option.some_bind] at h
  cases h2 : writeRow (pts.map fun p => sampleF thkF p) with
  | none => rw [h2] at h; simp at h
  | some hr =>
  rw [h2] at h
  simp only [Option.some_bind] at h
  cases h3 : writeRow (pts.map fun p => sampleNearest maskF p) with
  | none => rw [h3] at h; simp at h
  | some mr =>
  rw [h3] at h
  simp only [Option.some_bind] at h
  cases h4 : writeRow (pts.map fun p => sampleF uF p) with
  | none => rw [h4] at h; simp at h
  | some ur =>
  rw [h4] at h
  simp only [Option.some_bind] at h
  cases h5 : writeRow (pts.map fun p => sampleF vF p) with
  | none => rw [h5] at h; simp at h
  | some vr =>
  rw [h5] at h
  simp only [Option.some_bind, Option.pure_def, Option.some.injEq] at h
  subst h
  refine ⟨?_, ?_, ?_, ?_, ?_⟩
  · have := writeRow_take _ _ h1
    rw [List.length_map] at this
    simpa using this
  · have := writeRow_take _ _ h2
    rw [List.length_map] at this
    simpa using this
  · have := writeRow_take _ _ h3
    rw [List.length_map] at this
    simpa using this
  · have := writeRow_take _ _ h4
    rw [List.length_map] at this
    simpa using this
  · have := writeRow_take _ _ h5
    rw [List.length_map] at this
    simpa using this

/-- A per-transect sampling succeeds exactly when the transect's point count
fits the 300-slot buffer capacity. -/
lemma sampleTransect_isSome (thkF uF vF maskF xm ym : Field2D)
    (pts : List SamplePoint) :
    (sampleTransect thkF uF vF maskF xm ym pts).isSome ↔ pts.length ≤ 300 := by
  constructor
  · intro h
    unfold sampleTransect at h
    simp only [Option.bind_eq_bind] at h
    cases h1 : writeRow (pts.map fun p => savSq xm ym p) with
    | none => rw [h1] at h; simp at h
    | some sr =>
      have : (writeRow (pts.map fun p => savSq xm ym p)).isSome := by rw [h1]; rfl
      rw [writeRow_isSome, List.length_map] at this
      exact this
  · intro h
    have hs : ∀ vals : List ℚ, vals.length = pts.length → ∃ r, writeRow vals = some r := by
      intro vals hv
      have : (writeRow vals).isSome := by rw [writeRow_isSome, hv]; exact h
      exact Option.isSome_iff_exists.mp this
    obtain ⟨r1, e1⟩ := hs _ (List.length_map _ _)
    obtain ⟨r2, e2⟩ := hs _ (List.length_map _ _)
    obtain ⟨r3, e3⟩ := hs _ (List.length_map _ _)
    obtain ⟨r4, e4⟩ := hs _ (List.length_map _ _)
    obtain ⟨r5, e5⟩ := hs _ (List.length_map _ _)
    unfold sampleTransect
    rw [e1, e2, e3, e4, e5]
    rfl

/-- Inversion of a successful pipeline run: names resolved, profiles sampled,
and the output assembled from the normalized fields. -/
lemma runPostprocess_some (gen : TransectSpec → ℚ → List SamplePoint) (ds : Dataset)
    (out : Output) (h : runPostprocess gen ds = some out) :
    ∃ uF vF hF profs,
      resolveFields ds = some (uF, vF, hF) ∧
      pipelineProfiles gen ds uF vF hF = some profs ∧
      out = ⟨setZeroMissing uF, setZeroMissing vF, setZeroMissing hF,
        remapMask ds.mask, ds.topg, profs⟩ := by
  unfold runPostprocess at h
  cases hres : resolveFields ds with
  | none => rw [hres] at h; simp at h
  | some trip =>
    obtain ⟨uF, vF, hF⟩ := trip
    rw [hres] at h
    dsimp only at h
    cases hpp : pipelineProfiles gen ds uF vF hF with
    | none => rw [hpp] at h; simp at h
    | some profs =>
      rw [hpp] at h
      simp only [Option.some.injEq] at h
      exact ⟨uF, vF, hF, profs, rfl, hpp, h.symm⟩

/-- Claim C1: name resolution tries the primary set `xvelmean`/`yvelmean`/`lithk`
first and uses the fallback set `u_ssa`/`v_ssa`/`thk` only when the primary
attempt fails; both branches scale the two velocity fields by the same
`secperyear` factor; and when both sets fail the run aborts with no output. -/
theorem C1_name_resolution (ds : Dataset) :
    (∀ u v h, ds.xvelmean = some u → ds.yvelmean = some v → ds.lithk = some h →
      resolveFields ds = some (scaleField u, scaleField v, h)) ∧
    (tryNameSet ds.xvelmean ds.yvelmean ds.lithk = none →
      ∀ u v h, ds.u_ssa = some u → ds.v_ssa = some v → ds.thk = some h →
        resolveFields ds = some (scaleField u, scaleField v, h)) ∧
    (tryNameSet ds.xvelmean ds.yvelmean ds.lithk = none →
      tryNameSet ds.u_ssa ds.v_ssa ds.thk = none →
      ∀ gen, runPostprocess gen ds = none) := by
  refine ⟨?_, ?_, ?_⟩
  · intro u v h hu hv hh
    have hp : tryNameSet ds.xvelmean ds.yvelmean ds.lithk
        = some (scaleField u, scaleField v, h) := by
      rw [hu, hv, hh]
      rfl
    unfold resolveFields
    rw [hp]
  · intro hprim u v h hu hv hh
    have hf : tryNameSet ds.u_ssa ds.v_ssa ds.thk
        = some (scaleField u, scaleField v, h) := by
      rw [hu, hv, hh]
      rfl
    unfold resolveFields
    rw [hprim, hf]
  · intro hprim hfall gen
    have hres : resolveFields ds = none := by
      unfold resolveFields
      rw [hprim, hfall]
    unfold runPostprocess
    rw [hres]

theorem C1_name_resolution_witness :
    resolveFields dsPrimary = some (scaleField [[1]], scaleField [[2]], [[3]]) ∧
    runPostprocess genEmpty dsNoNames = none :=
  ⟨(C1_name_resolution dsPrimary).1 [[1]] [[2]] [[3]] rfl rfl rfl,
    (C1_name_resolution dsNoNames).2.2 rfl rfl genEmpty⟩

/-- Claim C2: the missing-value normalization of the full 2-D thickness and
velocity fields replaces exact-zero cells with the missing marker, leaves
non-zero cells unchanged, and is applied in the pipeline to exactly those
three fields — the mask and bedrock fields pass through untransformed. -/
theorem C2_zero_to_missing :
    (∀ (f : Field2D) (i j : ℕ), i < f.length → j < (f.getD i []).length →
      getC (setZeroMissing f) i j =
        if getQ f i j = 0 then Cell.missing else Cell.val (getQ f i j)) ∧
    (∀ gen ds out, runPostprocess gen ds = some out →
      ∃ uF vF hF, resolveFields ds = some (uF, vF, hF) ∧
        out.xvelmean = setZeroMissing uF ∧
        out.yvelmean = setZeroMissing vF ∧
        out.lithk = setZeroMissing hF ∧
        out.mask = remapMask ds.mask ∧
        out.topg = ds.topg) := by
  constructor
  · intro f i j hi hj
    exact getD_mapmap (fun v => if v = 0 then Cell.missing else Cell.val v)
      f i j 0 (Cell.val 0) hi hj
  · intro gen ds out h
    obtain ⟨uF, vF, hF, profs, hres, hpp, hout⟩ := runPostprocess_some gen ds out h
    exact ⟨uF, vF, hF, hres, by rw [hout], by rw [hout], by rw [hout],
      by rw [hout], by rw [hout]⟩

theorem C2_zero_to_missing_witness :
    getC (setZeroMissing [[0, 5]]) 0 1 = Cell.val 5 ∧
    (∃ uF vF hF, resolveFields dsSmall = some (uF, vF, hF) ∧
      outSmall.xvelmean = setZeroMissing uF ∧
      outSmall.yvelmean = setZeroMissing vF ∧
      outSmall.lithk = setZeroMissing hF ∧
      outSmall.mask = remapMask dsSmall.mask ∧
      outSmall.topg = dsSmall.topg) := by
  constructor
  · rw [C2_zero_to_missing.1 [[0, 5]] 0 1 (by decide) (by decide)]
    decide
  · exact C2_zero_to_missing.2 genEmpty dsSmall outSmall (by decide)

/-- Claim C5 evidence: the source performs no parity check.  On the even grid
`Mx = My = 4` it computes the off-center index `Mp = 1`, all eight transects
are planned from `(1, 1)`, and the pipeline runs to completion and produces
output instead of failing with a precondition violation. -/
theorem C5_even_grid_not_rejected :
    Mp 4 = 1 ∧
    (transects 4 4).map TransectSpec.start = List.replicate 8 ((1 : ℕ), (1 : ℕ)) ∧
    (runPostprocess genEmpty dsEvenGrid).isSome = true :=
  ⟨rfl, by decide, by decide⟩

/-- The transect plan always has eight entries. -/
lemma transects_length (Mx My : ℕ) : (transects Mx My).length = 8 := rfl

/-- Claim C9: for every transect, the arrays handed to the writer are
truncated to exactly that transect's own generated point count: each profile
array equals the list of that transect's sampled values point by point, so
its length is the transect's natural point count and no cross-transect
padding value is emitted. -/
theorem C9_profile_truncation (gen : TransectSpec → ℚ → List SamplePoint)
    (ds : Dataset) (out : Output) (h : runPostprocess gen ds = some out) :
    out.profiles.length = 8 ∧
    ∃ uF vF hF, resolveFields ds = some (uF, vF, hF) ∧
      ∀ l (hl : l < out.profiles.length),
        ((out.profiles.get ⟨l, hl⟩).sArr).length = (transPoints gen ds l).length ∧
        ((out.profiles.get ⟨l, hl⟩).hArr).length = (transPoints gen ds l).length ∧
        ((out.profiles.get ⟨l, hl⟩).mArr).length = (transPoints gen ds l).length ∧
        ((out.profiles.get ⟨l, hl⟩).uArr).length = (transPoints gen ds l).length ∧
        ((out.profiles.get ⟨l, hl⟩).vArr).length = (transPoints gen ds l).length ∧
        (out.profiles.get ⟨l, hl⟩).sArr = (transPoints gen ds l).map
          (fun p => savSq (buildXmesh ds.x (gridMx ds) (gridMy ds))
            (buildYmesh ds.y (gridMx ds) (gridMy ds)) p) ∧
        (out.profiles.get ⟨l, hl⟩).hArr = (transPoints gen ds l).map
          (fun p => sampleF hF p) ∧
        (out.profiles.get ⟨l, hl⟩).mArr = (transPoints gen ds l).map
          (fun p => sampleNearest (remapMask ds.mask) p) ∧
        (out.profiles.get ⟨l, hl⟩).uArr = (transPoints gen ds l).map
          (fun p => sampleF uF p) ∧
        (out.profiles.get ⟨l, hl⟩).vArr = (transPoints gen ds l).map
          (fun p => sampleF vF p) := by
  obtain ⟨uF, vF, hF, profs, hres, hpp, hout⟩ := runPostprocess_some gen ds out h
  subst hout
  have hlenmap : ((transects (gridMx ds) (gridMy ds)).map (fun t => gen t dp)).length = 8 := by
    rw [List.length_map, transects_length]
  have hlen8 : profs.length = 8 := by
    rw [optMap_length _ _ _ hpp, hlenmap]
  refine ⟨hlen8, uF, vF, hF, hres, ?_⟩
  intro l hl
  have hl' : l < profs.length := hl
  have hlm : l < ((transects (gridMx ds) (gridMy ds)).map (fun t => gen t dp)).length := by
    rw [hlenmap]
    omega
  have hlt : l < (transects (gridMx ds) (gridMy ds)).length := by
    rw [transects_length]
    omega
  have hst := optMap_get _ _ _ hpp l hlm hl'
  have hget : (((transects (gridMx ds) (gridMy ds)).map (fun t => gen t dp)).get ⟨l, hlm⟩)
      = transPoints gen ds l := by
    unfold transPoints
    rw [getD_of_lt _ _ hlt (points_A 0 0)]
    simp [List.get_eq_getElem, List.getElem_map]
  rw [hget] at hst
  obtain ⟨e1, e2, e3, e4, e5⟩ := sampleTransect_eq _ _ _ _ _ _ _ _ hst
  refine ⟨?_, ?_, ?_, ?_, ?_, e1, e2, e3, e4, e5⟩
  · rw [e1, List.length_map]
  · rw [e2, List.length_map]
  · rw [e3, List.length_map]
  · rw [e4, List.length_map]
  · rw [e5, List.length_map]

set_option maxRecDepth 4000 in
theorem C9_profile_truncation_witness : outOrigin.profiles.length = 8 :=
  (C9_profile_truncation genOrigin dsSmall outOrigin (by decide)).1

/-- Claim C10: the per-transect sample buffers have a fixed capacity of 300
points per transect; sampling a transect is in-bounds and completes without
an index error exactly when that transect's generated point count is at
most 300, and consequently every transect of a completed run satisfies this
bound. -/
theorem C10_buffer_capacity :
    (∀ (thkF uF vF maskF xm ym : Field2D) (pts : List SamplePoint),
      (sampleTransect thkF uF vF maskF xm ym pts).isSome ↔ pts.length ≤ 300) ∧
    (∀ gen ds out, runPostprocess gen ds = some out →
      ∀ t ∈ transects (gridMx ds) (gridMy ds), (gen t dp).length ≤ 300) := by
  constructor
  · exact sampleTransect_isSome
  · intro gen ds out h t ht
    obtain ⟨uF, vF, hF, profs, hres, hpp, hout⟩ := runPostprocess_some gen ds out h
    have hmem : gen t dp ∈ (transects (gridMx ds) (gridMy ds)).map (fun t => gen t dp) :=
      List.mem_map_of_mem _ ht
    have hsome := optMap_mem_isSome _ _ _ hpp (gen t dp) hmem
    rw [sampleTransect_isSome] at hsome
    exact hsome

set_option maxRecDepth 4000 in
theorem C10_buffer_capacity_witness :
    ((sampleTransect [[2]] [[0]] [[1]] [[0]] [[0]] [[0]]
        [((0 : ℚ), (0 : ℚ))]).isSome ↔ [((0 : ℚ), (0 : ℚ))].length ≤ 300) ∧
    (genOrigin (points_A 1 1) dp).length ≤ 300 :=
  ⟨C10_buffer_capacity.1 [[2]] [[0]] [[1]] [[0]] [[0]] [[0]] [((0 : ℚ), (0 : ℚ))],
    C10_buffer_capacity.2 genOrigin dsSmall outOrigin (by decide) (points_A 1 1) (by decide)⟩
